import Mathlib

/-!
Shallow embedding of `src/debugtimer/debugtimer.py`.

Modelling conventions:
* Python floats are modelled as exact rationals (`ℚ`); the float literals
  `1e-9`, `1e-6`, `1e-3` of the source become the exact rationals
  `1/1000000000`, `1/1000000`, `1/1000`.  IEEE rounding is not modelled.
* `time.perf_counter()` readings are passed explicitly as `ℚ` arguments.
* Fallible operations return `Except PyErr`; a raised Python exception is an
  `Except.error`.
* The test `0 < math.log10 x < 3` of the source is equivalent, for `x > 0`,
  to `1 < x ∧ x < 1000`; for `x ≤ 0` Python's `math.log10` raises
  `ValueError: math domain error`, modelled as an `Except.error`.
* Printing is modelled by returning the list of printed lines.
* The module as shipped imports only `time` (see `moduleImports`); the
  embedding of the formatting loop charitably assumes `math.log10` is in
  scope, with the missing import recorded separately.
-/

/-- Python exception values that the embedded code can raise. -/
inductive PyErr where
  | nameError : String → PyErr
  | valueError : String → PyErr
  | keyError : String → PyErr
  | attributeError : String → PyErr
deriving DecidableEq, Repr

/-- Decidable equality for `Except`, used to evaluate closed results. -/
instance decEqExcept {ε α : Type} [DecidableEq ε] [DecidableEq α] : DecidableEq (Except ε α) :=
  fun a b =>
    match a, b with
    | Except.error e, Except.error f =>
      if h : e = f then isTrue (congrArg Except.error h)
      else isFalse (fun c => h (Except.error.inj c))
    | Except.error _, Except.ok _ => isFalse (fun c => Except.noConfusion c)
    | Except.ok _, Except.error _ => isFalse (fun c => Except.noConfusion c)
    | Except.ok x, Except.ok y =>
      if h : x = y then isTrue (congrArg Except.ok h)
      else isFalse (fun c => h (Except.ok.inj c))

/-- Module-level imports of `debugtimer.py` (line 1).  Only `time` is
imported; in particular `math` — used by `DebugTimer.__exit__` via
`math.log10` — is absent, so every non-silent release raises
`NameError: name 'math' is not defined` in the module as shipped. -/
def moduleImports : List String := ["time"]

/-- State of `TimeAccumulator` (lines 3-20): slots `duration`, `num_calls`,
`start`.  `start` is unset after `__init__`, modelled as `Option`. -/
structure TimeAccumulator where
  duration : ℚ
  num_calls : ℕ
  start : Option ℚ
deriving DecidableEq, Repr

/-- `TimeAccumulator.__init__` (lines 10-12): `duration = 0.0`,
`num_calls = 0`; the `start` slot is left unset. -/
def TimeAccumulator.mk0 : TimeAccumulator :=
  { duration := 0, num_calls := 0, start := none }

/-- `TimeAccumulator.__enter__` (lines 14-16) at clock reading `now`:
increments `num_calls`, records `start`, and — having no `return`
statement — returns `None` (second component) to a `with ... as` binder. -/
def TimeAccumulator.enterCM (a : TimeAccumulator) (now : ℚ) :
    TimeAccumulator × Option TimeAccumulator :=
  ({ a with num_calls := a.num_calls + 1, start := some now }, none)

/-- `TimeAccumulator.__exit__` (lines 18-20) at clock reading `now`: adds
`now - self.start` to `duration`.  An unset `start` slot would raise
`AttributeError`. -/
def TimeAccumulator.exitCM (a : TimeAccumulator) (now : ℚ) :
    Except PyErr TimeAccumulator :=
  match a.start with
  | none => Except.error (PyErr.attributeError "start")
  | some s => Except.ok { a with duration := a.duration + (now - s) }

/-- Run a sequence of matched acquire/release pairs on an accumulator; pair
`(t0, t1)` performs `__enter__` at clock `t0` and `__exit__` at clock `t1`. -/
def TimeAccumulator.runPairs : TimeAccumulator → List (ℚ × ℚ) → Except PyErr TimeAccumulator
  | a, [] => Except.ok a
  | a, p :: ps =>
    match TimeAccumulator.exitCM ((TimeAccumulator.enterCM a p.1).1) p.2 with
    | Except.error e => Except.error e
    | Except.ok a' => TimeAccumulator.runPairs a' ps

/-- Lookup in an insertion-ordered association list, modelling Python
`dict.__getitem__` scan semantics (keys are unique in lists built by
`dictInsert`). -/
def dictGet {α : Type} : List (String × α) → String → Option α
  | [], _ => none
  | q :: rest, k => if k = q.1 then some q.2 else dictGet rest k

/-- Insertion into an insertion-ordered association list with Python `dict`
semantics: an existing key keeps its position and gets the new value, a new
key is appended. -/
def dictInsert {α : Type} (d : List (String × α)) (k : String) (v : α) :
    List (String × α) :=
  if d.any (fun q => q.1 == k) then
    d.map (fun q => if q.1 = k then (k, v) else q)
  else d ++ [(k, v)]

/-- The dict comprehension of `DebugTimer.__init__` line 54:
`{name: TimeAccumulator() for name in accumulator_names or []}`. -/
def buildAccumulators (names : List String) : List (String × TimeAccumulator) :=
  names.foldl (fun d n => dictInsert d n TimeAccumulator.mk0) []

/-- State of `DebugTimer` (lines 22-90): slots `name`, `silent`,
`accumulators`, `start`, `duration_sec`; the latter two are unset until
`__enter__` / `__exit__` run, modelled as `Option`. -/
structure DebugTimer where
  name : Option String
  silent : Bool
  accumulators : List (String × TimeAccumulator)
  start : Option ℚ
  duration_sec : Option ℚ
deriving DecidableEq, Repr

/-- `DebugTimer.__init__` (lines 51-54); `accumulator_names or []` maps
`None` to the empty list. -/
def DebugTimer.mk0 (name : Option String) (accumulator_names : Option (List String))
    (silent : Bool) : DebugTimer :=
  { name := name, silent := silent,
    accumulators := buildAccumulators (accumulator_names.getD []),
    start := none, duration_sec := none }

/-- `DebugTimer.__enter__` (lines 57-60) at clock reading `now`: records
`start` and returns `self` (the updated object, second component). -/
def DebugTimer.enterCM (t : DebugTimer) (now : ℚ) : DebugTimer × Option DebugTimer :=
  let t' := { t with start := some now }
  (t', some t')

/-- Accumulator lookup `self.accumulators[name]` (cf. docstring line 31):
Python `dict.__getitem__`, raising `KeyError` for an unregistered name. -/
def DebugTimer.accumulator (t : DebugTimer) (k : String) : Except PyErr TimeAccumulator :=
  match dictGet t.accumulators k with
  | some a => Except.ok a
  | none => Except.error (PyErr.keyError k)

/-- Unit table of the timer's own report (line 67); note ASCII `us`. -/
def timerUnits : List (ℚ × String) :=
  [(1/1000000000, "ns"), (1/1000000, "us"), (1/1000, "ms"), (1, "s"), (60, "m"), (3600, "h")]

/-- Unit table of the accumulator report (lines 77 and 83); note `μs`. -/
def accUnits : List (ℚ × String) :=
  [(1/1000000000, "ns"), (1/1000000, "μs"), (1/1000, "ms"), (1, "s"), (60, "m"), (3600, "h")]

/-- The unit-scaling scan (lines 67-70, duplicated at 77-80 and 83-86):
for each `(coeff, unit)` in order compute `duration = d / coeff` and break
on `0 < math.log10 duration < 3`.  For positive magnitude the test is
`1 < duration ∧ duration < 1000`; for magnitude `≤ 0` the `log10` call
raises `ValueError: math domain error`.  After a full scan with no break,
the loop variables hold the values from the last iteration, so the last
unit examined falls through. -/
def selectUnit : List (ℚ × String) → ℚ → Except PyErr (ℚ × String)
  | [], _ => Except.error (PyErr.nameError "unit")
  | (c, u) :: rest, d =>
    let m := d / c
    if m ≤ 0 then Except.error (PyErr.valueError "math domain error")
    else if 1 < m ∧ m < 1000 then Except.ok (m, u)
    else
      match rest with
      | [] => Except.ok (m, u)
      | _ :: _ => selectUnit rest d

/-- Left-pad the fractional part to three digits. -/
def pad3 (n : ℤ) : String :=
  (if n < 10 then "00" else if n < 100 then "0" else "") ++ toString n

/-- Python `f"{x:.3f}"` on an exact rational: three digits after the
decimal point (half-up rounding of the exact value; IEEE half-even
artifacts are not modelled). -/
def fmt3 (q : ℚ) : String :=
  let n : ℤ := ⌊q * 1000 + 1/2⌋
  if n < 0 then "-" ++ toString ((-n) / 1000) ++ "." ++ pad3 ((-n) % 1000)
  else toString (n / 1000) ++ "." ++ pad3 (n % 1000)

/-- `f"{duration:.3f} {unit}"` after the unit-scaling scan (lines 71, 81, 87). -/
def fmtDuration (units : List (ℚ × String)) (d : ℚ) : Except PyErr String :=
  match selectUnit units d with
  | Except.error e => Except.error e
  | Except.ok (m, u) => Except.ok (fmt3 m ++ " " ++ u)

/-- Loop body of lines 75-90 for one `(name, accumulator)` entry: no line
when `num_calls = 0`; otherwise the single printed line, with the total and
the per-call durations independently formatted.  The source writes the word
`Accumlator` (sic, line 90). -/
def accLine (nm : String) (a : TimeAccumulator) : Except PyErr (List String) :=
  if a.num_calls > 0 then
    match fmtDuration accUnits a.duration with
    | Except.error e => Except.error e
    | Except.ok totalFmt =>
      match fmtDuration accUnits (a.duration / (a.num_calls : ℚ)) with
      | Except.error e => Except.error e
      | Except.ok perCallFmt =>
        Except.ok ["\tAccumlator '" ++ nm ++ "' took " ++ totalFmt ++ " out of "
          ++ toString a.num_calls ++ " calls (" ++ perCallFmt ++ " per call)"]
  else Except.ok []

/-- The accumulator report loop (lines 74-90), in insertion order. -/
def accReport : List (String × TimeAccumulator) → Except PyErr (List String)
  | [] => Except.ok []
  | (nm, a) :: rest =>
    match accLine nm a with
    | Except.error e => Except.error e
    | Except.ok ls =>
      match accReport rest with
      | Except.error e => Except.error e
      | Except.ok ls' => Except.ok (ls ++ ls')

/-- `DebugTimer.__exit__` (lines 62-90) at clock reading `now`: stores
`duration_sec = end - start`; when not silent, prints the timer's own line
followed by the accumulator report.  The returned list holds the printed
lines.  The `math.log10` calls are modelled as available (see
`moduleImports` for the missing import in the module as shipped). -/
def DebugTimer.exitCM (t : DebugTimer) (now : ℚ) :
    Except PyErr (DebugTimer × List String) :=
  match t.start with
  | none => Except.error (PyErr.attributeError "start")
  | some s =>
    let d := now - s
    let t' := { t with duration_sec := some d }
    if t.silent then Except.ok (t', [])
    else
      match fmtDuration timerUnits d with
      | Except.error e => Except.error e
      | Except.ok df =>
        let nmPart := match t.name with
          | some n => " '" ++ n ++ "' "
          | none => " "
        let line1 := "Code block" ++ nmPart ++ "took " ++ df
        match accReport t.accumulators with
        | Except.error e => Except.error e
        | Except.ok ls => Except.ok (t', line1 :: ls)

/-! Helper lemmas about `dictGet`, `dictInsert` and `buildAccumulators`. -/

/-- Replacing the value at key `n` does not change lookups of other keys. -/
lemma dictGet_map_ne {α : Type} (d : List (String × α)) (n : String) (v : α)
    (k : String) (hk : k ≠ n) :
    dictGet (d.map fun q => if q.1 = n then (n, v) else q) k = dictGet d k := by
  induction d with
  | nil => rfl
  | cons q d ih =>
    simp only [List.map_cons, dictGet]
    by_cases h1 : q.1 = n
    · rw [if_pos h1]
      simp only [dictGet]
      rw [if_neg hk, if_neg (h1 ▸ hk), ih]
    · rw [if_neg h1, ih]

/-- Replacing the value at a present key `n` makes lookup of `n` find it. -/
lemma dictGet_map_eq {α : Type} (d : List (String × α)) (n : String) (v : α)
    (hmem : d.any (fun q => q.1 == n) = true) :
    dictGet (d.map fun q => if q.1 = n then (n, v) else q) n = some v := by
  induction d with
  | nil => simp at hmem
  | cons q d ih =>
    simp only [List.map_cons, dictGet]
    by_cases h1 : q.1 = n
    · rw [if_pos h1]
      simp [dictGet]
    · rw [if_neg h1, if_neg (fun h : n = q.1 => h1 h.symm)]
      apply ih
      simp only [List.any_cons, Bool.or_eq_true, beq_iff_eq] at hmem
      rcases hmem with h | h
      · exact absurd h h1
      · exact h

/-- Appending a fresh binding is only visible for its own key. -/
lemma dictGet_append {α : Type} (d : List (String × α)) (n : String) (v : α) (k : String) :
    dictGet (d ++ [(n, v)]) k =
      match dictGet d k with
      | some w => some w
      | none => if k = n then some v else none := by
  induction d with
  | nil => rfl
  | cons q d ih =>
    simp only [List.cons_append, dictGet]
    by_cases hq : k = q.1
    · rw [if_pos hq, if_pos hq]
    · rw [if_neg hq, if_neg hq]
      exact ih

/-- A key absent from the list looks up to `none`. -/
lemma dictGet_of_not_any {α : Type} (d : List (String × α)) (n : String)
    (h : ¬ d.any (fun q => q.1 == n) = true) :
    dictGet d n = none := by
  induction d with
  | nil => rfl
  | cons q d ih =>
    simp only [List.any_cons, Bool.or_eq_true, beq_iff_eq, not_or] at h
    simp only [dictGet]
    rw [if_neg (fun hn : n = q.1 => h.1 hn.symm)]
    exact ih h.2

/-- Characterisation of lookup after a Python-dict insertion. -/
lemma dictGet_dictInsert {α : Type} (d : List (String × α)) (n : String) (v : α)
    (k : String) :
    dictGet (dictInsert d n v) k = if k = n then some v else dictGet d k := by
  unfold dictInsert
  by_cases hmem : d.any (fun q => q.1 == n) = true
  · rw [if_pos hmem]
    by_cases hk : k = n
    · subst hk
      rw [if_pos rfl]
      exact dictGet_map_eq d k v hmem
    · rw [if_neg hk]
      exact dictGet_map_ne d n v k hk
  · rw [if_neg hmem, dictGet_append]
    by_cases hk : k = n
    · subst hk
      rw [dictGet_of_not_any d k hmem]
    · rcases h : dictGet d k with _ | w
      · rfl
      · rw [if_neg hk, if_neg hk]

/-- Lookup in the dict built by the comprehension of line 54: every supplied
name maps to a fresh `TimeAccumulator`, every other name is absent. -/
lemma dictGet_buildAccumulators (names : List String) (k : String) :
    dictGet (buildAccumulators names) k =
      if k ∈ names then some TimeAccumulator.mk0 else none := by
  suffices h : ∀ (d : List (String × TimeAccumulator)),
      dictGet (names.foldl (fun d n => dictInsert d n TimeAccumulator.mk0) d) k =
        if k ∈ names then some TimeAccumulator.mk0 else dictGet d k by
    rw [buildAccumulators, h []]
    rcases em (k ∈ names) with h' | h'
    · rw [if_pos h', if_pos h']
    · rw [if_neg h', if_neg h']
      rfl
  induction names with
  | nil =>
    intro d
    simp [List.foldl]
  | cons n ns ih =>
    intro d
    simp only [List.foldl]
    rw [ih]
    by_cases hk : k ∈ ns
    · rw [if_pos hk, if_pos (List.mem_cons.mpr (Or.inr hk))]
    · rw [if_neg hk, dictGet_dictInsert]
      by_cases hkn : k = n
      · rw [if_pos hkn, if_pos (List.mem_cons.mpr (Or.inl hkn))]
      · rw [if_neg hkn,
          if_neg (fun h => (List.mem_cons.mp h).elim hkn hk)]

/-! Helper lemmas about accumulator traces and the unit-scaling scan. -/

/-- One matched acquire/release pair reduces to a pure state update. -/
lemma runPairs_cons (a : TimeAccumulator) (p : ℚ × ℚ) (ps : List (ℚ × ℚ)) :
    TimeAccumulator.runPairs a (p :: ps) =
      TimeAccumulator.runPairs
        ⟨a.duration + (p.2 - p.1), a.num_calls + 1, some p.1⟩ ps := rfl

/-- A sequence of matched pairs always succeeds; the call count grows by the
number of pairs and the duration by the sum of the pair lengths. -/
lemma runPairs_spec (ps : List (ℚ × ℚ)) :
    ∀ a : TimeAccumulator, ∃ b : TimeAccumulator,
      TimeAccumulator.runPairs a ps = Except.ok b ∧
      b.num_calls = a.num_calls + ps.length ∧
      b.duration = a.duration + (ps.map fun p => p.2 - p.1).sum := by
  induction ps with
  | nil =>
    intro a
    exact ⟨a, rfl, by simp, by simp⟩
  | cons p ps ih =>
    intro a
    obtain ⟨b, hb, hn, hd⟩ := ih ⟨a.duration + (p.2 - p.1), a.num_calls + 1, some p.1⟩
    refine ⟨b, ?_, ?_, ?_⟩
    · rw [runPairs_cons]
      exact hb
    · simp only [List.length_cons]
      simp only at hn
      omega
    · simp only [List.map_cons, List.sum_cons]
      simp only at hd
      rw [hd]
      ring

/-- When every unit of the unit table fails the magnitude test on a
positive duration, the scan falls through to the last unit examined, hours. -/
lemma selectUnit_timer_fallthrough (d : ℚ) (hd : 0 < d)
    (hall : ∀ p ∈ timerUnits, ¬(1 < d / p.1 ∧ d / p.1 < 1000)) :
    selectUnit timerUnits d = Except.ok (d / 3600, "h") := by
  have h1 : ¬(1 < d / ((1:ℚ)/1000000000) ∧ d / ((1:ℚ)/1000000000) < 1000) :=
    hall (1/1000000000, "ns") (by simp [timerUnits])
  have h2 : ¬(1 < d / ((1:ℚ)/1000000) ∧ d / ((1:ℚ)/1000000) < 1000) :=
    hall (1/1000000, "us") (by simp [timerUnits])
  have h3 : ¬(1 < d / ((1:ℚ)/1000) ∧ d / ((1:ℚ)/1000) < 1000) :=
    hall (1/1000, "ms") (by simp [timerUnits])
  have h4 : ¬(1 < d / (1:ℚ) ∧ d / (1:ℚ) < 1000) :=
    hall (1, "s") (by simp [timerUnits])
  have h5 : ¬(1 < d / (60:ℚ) ∧ d / (60:ℚ) < 1000) :=
    hall (60, "m") (by simp [timerUnits])
  have h6 : ¬(1 < d / (3600:ℚ) ∧ d / (3600:ℚ) < 1000) :=
    hall (3600, "h") (by simp [timerUnits])
  have p1 : ¬(d / ((1:ℚ)/1000000000) ≤ 0) := not_le.mpr (div_pos hd (by norm_num))
  have p2 : ¬(d / ((1:ℚ)/1000000) ≤ 0) := not_le.mpr (div_pos hd (by norm_num))
  have p3 : ¬(d / ((1:ℚ)/1000) ≤ 0) := not_le.mpr (div_pos hd (by norm_num))
  have p4 : ¬(d / (1:ℚ) ≤ 0) := not_le.mpr (div_pos hd (by norm_num))
  have p5 : ¬(d / (60:ℚ) ≤ 0) := not_le.mpr (div_pos hd (by norm_num))
  have p6 : ¬(d / (3600:ℚ) ≤ 0) := not_le.mpr (div_pos hd (by norm_num))
  simp only [timerUnits, selectUnit]
  rw [if_neg p1, if_neg h1, if_neg p2, if_neg h2, if_neg p3, if_neg h3,
    if_neg p4, if_neg h4, if_neg p5, if_neg h5, if_neg p6, if_neg h6]

/-! Claim theorems. -/

/-- C1: the claim that release (`DebugTimer.__exit__`) has no error
conditions is refuted on the code.  The module imports only `time`, so the
`math.log10` call of every non-silent release raises `NameError`; and even
with `math` importable (as this embedding charitably assumes), an elapsed
duration of exactly 0 makes `math.log10(0.0)` raise
`ValueError: math domain error`, shown here at a concrete release. -/
theorem nonSilent_release_fails :
    moduleImports = ["time"] ∧
    "math" ∉ moduleImports ∧
    DebugTimer.exitCM (((DebugTimer.mk0 none none false).enterCM 0).1) 0 =
      Except.error (PyErr.valueError "math domain error") :=
  ⟨rfl, by decide, by
    norm_num [DebugTimer.exitCM, DebugTimer.mk0, DebugTimer.enterCM, buildAccumulators,
      fmtDuration, selectUnit, timerUnits]⟩

/-- C2 counterexample: at a duration of exactly 0 the unit-scaling scan does
not complete and fall through to hours; its first `math.log10` evaluation
raises `ValueError: math domain error`. -/
theorem selectUnit_zero_errors :
    selectUnit timerUnits 0 = Except.error (PyErr.valueError "math domain error") ∧
    selectUnit accUnits 0 = Except.error (PyErr.valueError "math domain error") := by
  constructor <;> norm_num [selectUnit, timerUnits, accUnits]

/-- C2 (amended): for a positive duration for which no unit passes the
magnitude test, the scan completes without error and falls through to the
last unit examined, hours, rendering with unit `h`; at exactly 0 it raises
instead (see the counterexample). -/
theorem fallthrough_renders_hours (d : ℚ) (hd : 0 < d)
    (hall : ∀ p ∈ timerUnits, ¬(1 < d / p.1 ∧ d / p.1 < 1000)) :
    selectUnit timerUnits d = Except.ok (d / 3600, "h") ∧
    fmtDuration timerUnits d = Except.ok (fmt3 (d / 3600) ++ " " ++ "h") := by
  have hs := selectUnit_timer_fallthrough d hd hall
  refine ⟨hs, ?_⟩
  unfold fmtDuration
  rw [hs]

/-- C2 witness: one nanosecond exactly fails every magnitude test and is
rendered in hours. -/
theorem fallthrough_renders_hours_witness :
    0 < ((1:ℚ)/1000000000) ∧
    (∀ p ∈ timerUnits, ¬(1 < ((1:ℚ)/1000000000) / p.1 ∧ ((1:ℚ)/1000000000) / p.1 < 1000)) ∧
    (selectUnit timerUnits ((1:ℚ)/1000000000) = Except.ok (((1:ℚ)/1000000000) / 3600, "h") ∧
     fmtDuration timerUnits ((1:ℚ)/1000000000) =
       Except.ok (fmt3 (((1:ℚ)/1000000000) / 3600) ++ " " ++ "h")) :=
  ⟨by norm_num, by norm_num [timerUnits],
   fallthrough_renders_hours ((1:ℚ)/1000000000) (by norm_num) (by norm_num [timerUnits])⟩

/-- C3 counterexample: at exactly 1000 ns (`1e-6` s, exact arithmetic) the
scan does not select microseconds with magnitude 1: the strict lower bound
`0 < log10` rejects magnitude exactly 1. -/
theorem boundary_1000ns_not_micro :
    selectUnit accUnits ((1:ℚ)/1000000) ≠ Except.ok (1, "μs") ∧
    selectUnit timerUnits ((1:ℚ)/1000000) ≠ Except.ok (1, "us") := by
  constructor <;> norm_num [selectUnit, timerUnits, accUnits]

/-- C3 (amended): at exactly 1000 ns neither the smaller unit (magnitude
exactly 1000 fails `< 1000`) nor the larger unit (magnitude exactly 1 fails
`1 <`) passes, so the scan falls through to hours. -/
theorem boundary_1000ns_falls_to_hours :
    selectUnit accUnits ((1:ℚ)/1000000) = Except.ok (1/3600000000, "h") ∧
    selectUnit timerUnits ((1:ℚ)/1000000) = Except.ok (1/3600000000, "h") := by
  constructor <;> norm_num [selectUnit, timerUnits, accUnits]

/-- C5: unit selection is deterministic on the fixed ordered table; 500 ns,
500 μs, 500 ms and 500 s select `ns`, `us`/`μs`, `ms` and `s` with scaled
magnitude 500, in both the timer's table and the accumulator table. -/
theorem unit_selection_500 :
    selectUnit timerUnits ((1:ℚ)/2000000) = Except.ok (500, "ns") ∧
    selectUnit accUnits ((1:ℚ)/2000000) = Except.ok (500, "ns") ∧
    selectUnit timerUnits ((1:ℚ)/2000) = Except.ok (500, "us") ∧
    selectUnit accUnits ((1:ℚ)/2000) = Except.ok (500, "μs") ∧
    selectUnit timerUnits ((1:ℚ)/2) = Except.ok (500, "ms") ∧
    selectUnit accUnits ((1:ℚ)/2) = Except.ok (500, "ms") ∧
    selectUnit timerUnits 500 = Except.ok (500, "s") ∧
    selectUnit accUnits 500 = Except.ok (500, "s") := by
  refine ⟨?_, ?_, ?_, ?_, ?_, ?_, ?_, ?_⟩ <;> norm_num [selectUnit, timerUnits, accUnits]

/-- C4 counterexample: the per-accumulator report line the code prints
begins `\tAccumlator` (sic), not `\tAccumulator` as the claim states, shown
on an accumulator with a 2-second cumulative duration over one call. -/
theorem accLine_spelling :
    accLine "a" ⟨2, 1, some 0⟩ = Except.ok
      ["\tAccumlator 'a' took 2.000 s out of 1 calls (2.000 s per call)"] ∧
    "\tAccumlator 'a' took 2.000 s out of 1 calls (2.000 s per call)" ≠
      "\tAccumulator 'a' took 2.000 s out of 1 calls (2.000 s per call)" := by
  constructor
  · norm_num [accLine, fmtDuration, selectUnit, accUnits, fmt3, pad3]
    decide
  · decide

/-- C4 (amended): for every registered accumulator with `num_calls > 0` the
report prints exactly one line
`\tAccumlator '<name>' took <total> <unit> out of <count> calls (<per-call> <unit> per call)`
(the source spells `Accumlator`), where the total is the formatted
cumulative duration, the count is `num_calls`, and the per-call value is
`duration / num_calls`, each duration independently formatted. -/
theorem accLine_format (nm : String) (a : TimeAccumulator) (tf pf : String)
    (hn : a.num_calls > 0)
    (ht : fmtDuration accUnits a.duration = Except.ok tf)
    (hp : fmtDuration accUnits (a.duration / (a.num_calls : ℚ)) = Except.ok pf) :
    accLine nm a = Except.ok ["\tAccumlator '" ++ nm ++ "' took " ++ tf ++ " out of "
      ++ toString a.num_calls ++ " calls (" ++ pf ++ " per call)"] := by
  unfold accLine
  rw [if_pos hn, ht, hp]

/-- C4 witness: the amended format theorem applied to a concrete
accumulator. -/
theorem accLine_format_witness :
    (⟨2, 1, some 0⟩ : TimeAccumulator).num_calls > 0 ∧
    fmtDuration accUnits (⟨2, 1, some 0⟩ : TimeAccumulator).duration = Except.ok "2.000 s" ∧
    fmtDuration accUnits ((⟨2, 1, some 0⟩ : TimeAccumulator).duration /
      ((⟨2, 1, some 0⟩ : TimeAccumulator).num_calls : ℚ)) = Except.ok "2.000 s" ∧
    accLine "a2" ⟨2, 1, some 0⟩ = Except.ok ["\tAccumlator '" ++ "a2" ++ "' took "
      ++ "2.000 s" ++ " out of " ++ toString (⟨2, 1, some 0⟩ : TimeAccumulator).num_calls
      ++ " calls (" ++ "2.000 s" ++ " per call)"] :=
  ⟨by decide,
   by norm_num [fmtDuration, selectUnit, accUnits, fmt3, pad3]; decide,
   by norm_num [fmtDuration, selectUnit, accUnits, fmt3, pad3]; decide,
   accLine_format "a2" ⟨2, 1, some 0⟩ "2.000 s" "2.000 s" (by decide)
     (by norm_num [fmtDuration, selectUnit, accUnits, fmt3, pad3]; decide)
     (by norm_num [fmtDuration, selectUnit, accUnits, fmt3, pad3]; decide)⟩

/-- C6: looking up an accumulator name that was not supplied at
construction fails with a `KeyError`, and looking up a supplied name
returns the owned (fresh) accumulator, regardless of the other names. -/
theorem accumulator_lookup (nm : Option String) (names : List String) (sil : Bool)
    (k : String) :
    (k ∉ names → DebugTimer.accumulator (DebugTimer.mk0 nm (some names) sil) k =
      Except.error (PyErr.keyError k)) ∧
    (k ∈ names → DebugTimer.accumulator (DebugTimer.mk0 nm (some names) sil) k =
      Except.ok TimeAccumulator.mk0) := by
  have hacc : (DebugTimer.mk0 nm (some names) sil).accumulators = buildAccumulators names := rfl
  constructor
  · intro h
    unfold DebugTimer.accumulator
    rw [hacc, dictGet_buildAccumulators, if_neg h]
  · intro h
    unfold DebugTimer.accumulator
    rw [hacc, dictGet_buildAccumulators, if_pos h]

/-- C6 witness: the lookup dichotomy at a concrete timer with accumulators
`a` and `b`. -/
theorem accumulator_lookup_witness :
    "c" ∉ ["a", "b"] ∧ "a" ∈ ["a", "b"] ∧
    DebugTimer.accumulator (DebugTimer.mk0 none (some ["a", "b"]) false) "c" =
      Except.error (PyErr.keyError "c") ∧
    DebugTimer.accumulator (DebugTimer.mk0 none (some ["a", "b"]) false) "a" =
      Except.ok TimeAccumulator.mk0 :=
  ⟨by decide, by decide,
   (accumulator_lookup none ["a", "b"] false "c").1 (by decide),
   (accumulator_lookup none ["a", "b"] false "a").2 (by decide)⟩

/-- C7: a silent timer's release prints no line at all, yet still computes
and stores `duration_sec = end - start`, readable afterwards. -/
theorem silent_release (t : DebugTimer) (s now : ℚ) (hs : t.silent = true)
    (hst : t.start = some s) :
    DebugTimer.exitCM t now = Except.ok ({ t with duration_sec := some (now - s) }, []) := by
  unfold DebugTimer.exitCM
  rw [hst, hs]
  rfl

/-- C7 witness: a concrete silent timer entered at clock 2 and released at
clock 5 prints nothing and stores elapsed 3 seconds. -/
theorem silent_release_witness :
    (((DebugTimer.mk0 none none true).enterCM 2).1).silent = true ∧
    (((DebugTimer.mk0 none none true).enterCM 2).1).start = some 2 ∧
    DebugTimer.exitCM (((DebugTimer.mk0 none none true).enterCM 2).1) 5 =
      Except.ok ({ ((DebugTimer.mk0 none none true).enterCM 2).1 with
        duration_sec := some (5 - 2) }, []) :=
  ⟨rfl, rfl, silent_release (((DebugTimer.mk0 none none true).enterCM 2).1) 2 5 rfl rfl⟩

/-- C8: accumulator invariants.  Both fields start at 0; each acquisition
increments `num_calls` by exactly 1; and along any sequence of matched
acquire/release pairs on a monotonic clock (release time at least acquire
time), the final state has `num_calls` equal to the number of pairs,
non-negative `duration`, satisfies `num_calls = 0 → duration = 0`, and any
further matched pairs never decrease `duration` or `num_calls`. -/
theorem accumulator_trace_invariants (ps : List (ℚ × ℚ))
    (hps : ∀ p ∈ ps, p.1 ≤ p.2) :
    TimeAccumulator.mk0.duration = 0 ∧
    TimeAccumulator.mk0.num_calls = 0 ∧
    (∀ (a : TimeAccumulator) (t : ℚ),
      ((TimeAccumulator.enterCM a t).1).num_calls = a.num_calls + 1) ∧
    ∃ b : TimeAccumulator,
      TimeAccumulator.runPairs TimeAccumulator.mk0 ps = Except.ok b ∧
      b.num_calls = ps.length ∧
      0 ≤ b.duration ∧
      (b.num_calls = 0 → b.duration = 0) ∧
      ∀ qs : List (ℚ × ℚ), (∀ p ∈ qs, p.1 ≤ p.2) →
        ∃ c : TimeAccumulator, TimeAccumulator.runPairs b qs = Except.ok c ∧
          b.duration ≤ c.duration ∧ b.num_calls ≤ c.num_calls := by
  refine ⟨rfl, rfl, fun a t => rfl, ?_⟩
  obtain ⟨b, hb, hn, hd⟩ := runPairs_spec ps TimeAccumulator.mk0
  have hsum : 0 ≤ (ps.map fun p => p.2 - p.1).sum := by
    apply List.sum_nonneg
    intro x hx
    simp only [List.mem_map] at hx
    obtain ⟨p, hp, rfl⟩ := hx
    exact sub_nonneg.mpr (hps p hp)
  have hn' : b.num_calls = ps.length := by
    rw [hn]
    show 0 + ps.length = ps.length
    rw [Nat.zero_add]
  have hd' : b.duration = (ps.map fun p => p.2 - p.1).sum := by
    rw [hd]
    show (0:ℚ) + _ = _
    rw [zero_add]
  refine ⟨b, hb, hn', ?_, ?_, ?_⟩
  · rw [hd']
    exact hsum
  · intro h0
    have hlen : ps.length = 0 := by omega
    have hnil : ps = [] := List.length_eq_zero.mp hlen
    subst hnil
    rw [hd']
    rfl
  · intro qs hqs
    obtain ⟨c, hc, hcn, hcd⟩ := runPairs_spec qs b
    have hqsum : 0 ≤ (qs.map fun p => p.2 - p.1).sum := by
      apply List.sum_nonneg
      intro x hx
      simp only [List.mem_map] at hx
      obtain ⟨p, hp, rfl⟩ := hx
      exact sub_nonneg.mpr (hqs p hp)
    refine ⟨c, hc, ?_, ?_⟩
    · rw [hcd]
      linarith
    · rw [hcn]
      exact Nat.le_add_right _ _

/-- C8 witness: the invariants instantiated on two matched pairs, of
lengths 1 and 3 clock units. -/
theorem accumulator_trace_invariants_witness :
    (∀ p ∈ [((0:ℚ), (1:ℚ)), ((2:ℚ), (5:ℚ))], p.1 ≤ p.2) ∧
    (TimeAccumulator.mk0.duration = 0 ∧
     TimeAccumulator.mk0.num_calls = 0 ∧
     (∀ (a : TimeAccumulator) (t : ℚ),
       ((TimeAccumulator.enterCM a t).1).num_calls = a.num_calls + 1) ∧
     ∃ b : TimeAccumulator,
       TimeAccumulator.runPairs TimeAccumulator.mk0 [((0:ℚ), (1:ℚ)), ((2:ℚ), (5:ℚ))] =
         Except.ok b ∧
       b.num_calls = [((0:ℚ), (1:ℚ)), ((2:ℚ), (5:ℚ))].length ∧
       0 ≤ b.duration ∧
       (b.num_calls = 0 → b.duration = 0) ∧
       ∀ qs : List (ℚ × ℚ), (∀ p ∈ qs, p.1 ≤ p.2) →
         ∃ c : TimeAccumulator, TimeAccumulator.runPairs b qs = Except.ok c ∧
           b.duration ≤ c.duration ∧ b.num_calls ≤ c.num_calls) :=
  ⟨by norm_num, accumulator_trace_invariants [((0:ℚ), (1:ℚ)), ((2:ℚ), (5:ℚ))] (by norm_num)⟩

/-- C9: a registered accumulator never acquired (`num_calls = 0`)
contributes no line to the report — not an error — and its entry leaves the
rest of the report unchanged. -/
theorem unused_accumulator_no_line (nm : String) (a : TimeAccumulator)
    (h : a.num_calls = 0) :
    accLine nm a = Except.ok [] ∧
    ∀ rest : List (String × TimeAccumulator),
      accReport ((nm, a) :: rest) = accReport rest := by
  have h1 : accLine nm a = Except.ok [] := by
    unfold accLine
    rw [if_neg (by omega : ¬a.num_calls > 0)]
  refine ⟨h1, ?_⟩
  intro rest
  show (match accLine nm a with
    | Except.error e => Except.error e
    | Except.ok ls =>
      match accReport rest with
      | Except.error e => Except.error e
      | Except.ok ls' => Except.ok (ls ++ ls')) = accReport rest
  rw [h1]
  cases hr : accReport rest <;> rfl

/-- C9 witness: a freshly constructed accumulator is omitted from the
report. -/
theorem unused_accumulator_no_line_witness :
    TimeAccumulator.mk0.num_calls = 0 ∧
    (accLine "b" TimeAccumulator.mk0 = Except.ok [] ∧
     ∀ rest : List (String × TimeAccumulator),
       accReport (("b", TimeAccumulator.mk0) :: rest) = accReport rest) :=
  ⟨rfl, unused_accumulator_no_line "b" TimeAccumulator.mk0 rfl⟩

/-- C10: `TimeAccumulator.__enter__` returns `None` (a `with ... as x`
binder receives `None`), whereas `DebugTimer.__enter__` returns the timer
itself. -/
theorem enter_return_values :
    (∀ (a : TimeAccumulator) (now : ℚ), (TimeAccumulator.enterCM a now).2 = none) ∧
    (∀ (t : DebugTimer) (now : ℚ),
      (DebugTimer.enterCM t now).2 = some (DebugTimer.enterCM t now).1) :=
  ⟨fun _ _ => rfl, fun _ _ => rfl⟩
